import Mathlib

/-!
# Verification of the PARA memory fact-store engine

Shallow embedding of `scripts/memory_checkpoint.py` and `scripts/memory-decay.py`.

Modelling conventions:
* Dates are abstracted to integer day numbers.  A value stored in a date field
  is a `PDate`: either `valid n` (an ISO date string that parses, at day `n`)
  or `invalid s` (a string that `datetime.fromisoformat` rejects).  `now` is
  the current day number; the number of days elapsed since a valid date `t`
  is `now - t`, matching Python's `(datetime.now() - t).days` for the
  date-only strings the scripts write.
* JSON documents become Lean structures.  A field the code reads with
  `dict.get(key, default)` and that can be genuinely absent is an `Option`.
* The filesystem of entity directories becomes an association list from the
  entity path (relative to the PARA root, as produced by `entity_path_for`)
  to the parsed `facts.json` document.  The access-log JSON file becomes an
  association list from `"entity:factId"` keys to log entries.
* Each Python function performing one read-modify-write of a document is a
  pure Lean function from the old document (plus inputs) to the new document
  (plus results); the returned document is the content of that single write.
-/

namespace Para

/-- A date value as stored in a JSON field: either a day number (an ISO date
string that `datetime.fromisoformat` accepts) or an unparsable string. -/
inductive PDate where
  | valid : Int → PDate
  | invalid : String → PDate
deriving DecidableEq, Repr

/-- The text of a date field, used when it is interpolated into summary
text.  Valid dates render as their (abstract) day number. -/
def PDate.text : PDate → String
  | .valid n => toString n
  | .invalid s => s

/-- Tier configuration from environment variables
(`PARA_HOT_DAYS`, `PARA_WARM_DAYS`, `PARA_HIGH_FREQ_THRESHOLD`). -/
structure Config where
  hotDays : Int
  warmDays : Int
  highFreqThreshold : Nat
deriving DecidableEq, Repr

/-- A fact record inside `facts.json` (`memory_checkpoint.py`, lines 324-342
give the full schema written by the code). -/
structure Fact where
  id : String
  fact : String
  category : String
  status : String
  created : PDate
  lastAccessed : Option PDate
  accessCount : Option Nat
  relatedEntities : List String
  supersededBy : Option String
  source : Option String
deriving DecidableEq, Repr

/-- An entity's `facts.json` document. -/
structure Doc where
  entity : String
  entityType : String
  created : PDate
  lastUpdated : PDate
  createdReason : String
  facts : List Fact
deriving DecidableEq, Repr

/-- One value of the access-log JSON document. -/
structure LogEntry where
  accessCount : Nat
  lastAccessed : PDate
deriving DecidableEq, Repr

/-- The access-log document: `"entity:factId"` keys to entries, in insertion
order (Python dicts preserve insertion order). -/
abbrev AccessLog := List (String × LogEntry)

/-- The on-disk PARA tree: entity path (relative to the PARA root) to parsed
`facts.json` document. -/
abbrev Store := List (String × Doc)

/-- Python truthiness of an optional string field
(`if fact.get("supersededBy"):`): present and non-empty. -/
def truthy : Option String → Bool
  | none => false
  | some s => s ≠ ""

/-- First value bound to a key in an association list (dict lookup). -/
def assocFind {α : Type} : List (String × α) → String → Option α
  | [], _ => none
  | (k, v) :: rest, key => if k = key then some v else assocFind rest key

/-- Replace the value at an existing key (in-place dict/file update).  A key
that is absent is left absent: the callers below only use this after a
successful `assocFind`. -/
def assocSet {α : Type} : List (String × α) → String → α → List (String × α)
  | [], _, _ => []
  | (k, w) :: rest, key, v =>
    if k = key then (k, v) :: rest else (k, w) :: assocSet rest key v

/-! ## String helpers

Implemented over `List Char` so every proof can evaluate them by kernel
reduction.  They model the exact Python string operations the scripts use. -/

/-- Split on the path separator, Python `str.split("/")`. -/
def splitSlashAux : List Char → List Char → List String
  | [], acc => [String.mk acc.reverse]
  | c :: cs, acc =>
    if c = '/' then String.mk acc.reverse :: splitSlashAux cs []
    else splitSlashAux cs (c :: acc)

/-- Python `rel_path.split("/")`. -/
def splitSlash (s : String) : List String :=
  splitSlashAux s.toList []

/-- Python `str.rstrip('s')`: drop every trailing `'s'`. -/
def stripTrailingS (s : String) : String :=
  String.mk (s.toList.reverse.dropWhile (fun c => c = 's')).reverse

/-- Python `"&" -> " and "` replacement inside `slugify`. -/
def replaceAmp : List Char → List Char
  | [] => []
  | c :: cs =>
    if c = '&' then ' ' :: 'a' :: 'n' :: 'd' :: ' ' :: replaceAmp cs
    else c :: replaceAmp cs

/-- A character the slug regex `[^a-z0-9]` keeps. -/
def isSlugChar (c : Char) : Bool :=
  ('a' ≤ c && c ≤ 'z') || ('0' ≤ c && c ≤ '9')

/-- Collapse runs of dashes to one dash (the `+` in `re.sub(r"[^a-z0-9]+", "-", s)`
together with `re.sub(r"-+", "-", s)`). -/
def squashDashes : List Char → List Char
  | [] => []
  | c :: cs =>
    let rest := squashDashes cs
    if c = '-' then
      match rest with
      | '-' :: _ => rest
      | _ => c :: rest
    else c :: rest

/-- Python `str.strip("-")` on a character list. -/
def stripDashes (l : List Char) : List Char :=
  ((l.dropWhile (fun c => c = '-')).reverse.dropWhile (fun c => c = '-')).reverse

/-- `slugify` from `memory_checkpoint.py` (lines 52-58): lowercase, `&` to
" and ", non-alphanumeric runs to a single dash, strip dashes, "unnamed" if
empty. -/
def slugify (name : String) : String :=
  let cs := (name.toList.dropWhile Char.isWhitespace).reverse.dropWhile Char.isWhitespace
  let cs := cs.reverse.map Char.toLower
  let cs := replaceAmp cs
  let cs := cs.map (fun c => if isSlugChar c then c else '-')
  let cs := stripDashes (squashDashes cs)
  if cs.isEmpty then "unnamed" else String.mk cs

/-- `entity_path_for` from `memory_checkpoint.py` (lines 61-67), as the path
relative to the PARA root. -/
def entity_path_for (entityType entityName : String) : String :=
  let n := slugify entityName
  if entityType = "people" || entityType = "companies" then
    "areas/" ++ entityType ++ "/" ++ n
  else
    entityType ++ "/" ++ n

/-- Zero-padded sequence number, Python `f"...{n:03d}"`. -/
def pad3 (n : Nat) : String :=
  if n < 10 then "00" ++ toString n
  else if n < 100 then "0" ++ toString n
  else toString n

/-- Python `str.title()`: uppercase a letter that does not follow a letter,
lowercase the others. -/
def titleChars : Bool → List Char → List Char
  | _, [] => []
  | prevAlpha, c :: cs =>
    if c.isAlpha then
      (if prevAlpha then c.toLower else c.toUpper) :: titleChars true cs
    else
      c :: titleChars false cs

/-- Python `entity_name.replace("-", " ").title()`. -/
def titleOfSlug (s : String) : String :=
  String.mk (titleChars false (s.toList.map (fun c => if c = '-' then ' ' else c)))

/-- Python `"\n".join(lines)`. -/
def joinLines : List String → String
  | [] => ""
  | [l] => l
  | l :: rest => l ++ "\n" ++ joinLines rest

/-- Code-point comparison of strings, Python's `sorted` order on the
related-entities set. -/
def charListLe : List Char → List Char → Bool
  | [], _ => true
  | _ :: _, [] => false
  | a :: as, b :: bs =>
    if a.toNat < b.toNat then true
    else if b.toNat < a.toNat then false
    else charListLe as bs

/-- Insert into a sorted list of strings. -/
def insertSorted (x : String) : List String → List String
  | [] => [x]
  | y :: ys => if charListLe x.toList y.toList then x :: y :: ys else y :: insertSorted x ys

/-- Python `sorted(...)` over strings. -/
def sortStrings (l : List String) : List String :=
  l.foldr insertSorted []

/-- Add to a Python `set` of strings modelled as a duplicate-free list in
insertion order. -/
def insertUnique (l : List String) (x : String) : List String :=
  if l.contains x then l else l ++ [x]

/-- The set of `relatedEntities` collected from a list of facts
(`related_entities.add(rel)` loops in both scripts). -/
def collectRels (facts : List Fact) : List String :=
  facts.foldl (fun acc f => f.relatedEntities.foldl insertUnique acc) []
/-! ## Tier classifier (`memory-decay.py`, lines 72-90) -/

/-- A fact's decay tier. -/
inductive Tier where
  | hot
  | warm
  | cold
deriving DecidableEq, Repr

/-- Days elapsed for a date argument of `categorize_fact`: `none` models a
Python `None` argument, `some (.invalid s)` an unparsable string; either
raises in `datetime.fromisoformat` and is replaced by the 100-days-ago
sentinel, giving 100 elapsed days. -/
def daysSince (now : Int) (lastAccessed : Option PDate) : Int :=
  match lastAccessed with
  | some (.valid t) => now - t
  | _ => 100

/-- `categorize_fact` from `memory-decay.py` (lines 72-90).  The `CONFIG`
global and `datetime.now()` become explicit arguments. -/
def categorize_fact (cfg : Config) (now : Int) (lastAccessed : Option PDate)
    (accessCount : Nat) : Tier :=
  let daysAgo := daysSince now lastAccessed
  if accessCount ≥ cfg.highFreqThreshold then .hot
  else if daysAgo ≤ cfg.hotDays then .hot
  else if daysAgo ≤ cfg.warmDays then .warm
  else .cold

/-- The tier computation inlined in `regenerate_entity_summary`
(`memory_checkpoint.py`, lines 499-523): hardcoded `HOT_DAYS = 7`,
`WARM_DAYS = 30`, frequency threshold `10`; the date string always exists
there (`fact.get("lastAccessed", created)`), so the argument is a `PDate`,
with parse failure (`except: days_ago = 100`) on `invalid`. -/
def checkpointTier (now : Int) (lastAccessed : PDate) (accessCount : Nat) : Tier :=
  let daysAgo :=
    match lastAccessed with
    | .valid t => now - t
    | .invalid _ => 100
  if accessCount ≥ 10 then .hot
  else if daysAgo ≤ 7 then .hot
  else if daysAgo ≤ 30 then .warm
  else .cold

/-! ## Fact repository (`memory_checkpoint.py`) -/

/-- The `facts.json` content written by `create_entity`
(`memory_checkpoint.py`, lines 272-297; the summary file it also writes is
derived data and not part of the fact store state). -/
def create_entity_doc (entityType entityName reason : String) (now : Int) : Doc :=
  { entity := slugify entityName
    entityType := entityType
    created := .valid now
    lastUpdated := .valid now
    createdReason := reason
    facts := [] }

/-- The id allocated for the next fact:
`f"{entity_name[:3]}-{len(existing_ids) + 1:03d}"` on the slugified name. -/
def generatedId (slugName : String) (doc : Doc) : String :=
  String.mk (slugName.toList.take 3) ++ "-" ++ pad3 (doc.facts.length + 1)

/-- The supersession loop of `append_fact_to_entity` (lines 345-351): mark
the first fact with the given id and `status == "active"` as superseded,
pointing at the new fact's id, then `break`. -/
def markSuperseded (facts : List Fact) (supersedesId newId : String) : List Fact :=
  match facts with
  | [] => []
  | f :: rest =>
    if f.id = supersedesId ∧ f.status = "active" then
      { f with status := "superseded", supersededBy := some newId } :: rest
    else
      f :: markSuperseded rest supersedesId newId

/-- `append_fact_to_entity` from `memory_checkpoint.py` (lines 300-359).
`existing` is the parsed `facts.json` if the file exists (`none` triggers the
`create_entity` auto-creation).  The result is the document of the single
`json.dump` write together with the return value (`none` = duplicate).
`supersedesId = some sid` models a non-empty `supersedes_id` string. -/
def append_fact_to_entity (entityType entityName : String) (existing : Option Doc)
    (content category : String) (relatedEntities : List String)
    (source : Option String) (supersedesId : Option String) (now : Int) :
    Doc × Option Fact :=
  let slugName := slugify entityName
  let doc :=
    match existing with
    | some d => d
    | none => create_entity_doc entityType entityName "Auto-created for fact storage" now
  let newId := generatedId slugName doc
  if (doc.facts.map (fun f => f.fact)).contains content then
    (doc, none)
  else
    let newFact : Fact :=
      { id := newId
        fact := content
        category := category
        status := "active"
        created := .valid now
        lastAccessed := some (.valid now)
        accessCount := some 1
        relatedEntities := relatedEntities
        supersededBy := supersedesId
        source := some (source.getD "checkpoint") }
    let facts :=
      match supersedesId with
      | none => doc.facts
      | some sid => markSuperseded doc.facts sid newId
    ({ doc with facts := facts ++ [newFact], lastUpdated := .valid now }, some newFact)

/-- One `log[key]` bump inside `update_access_log` (lines 445-450): create
the entry with count 0 if absent, then increment and stamp. -/
def bumpLogKey (log : AccessLog) (key : String) (now : Int) : AccessLog :=
  match assocFind log key with
  | none => log ++ [(key, { accessCount := 1, lastAccessed := .valid now })]
  | some e => assocSet log key { accessCount := e.accessCount + 1, lastAccessed := .valid now }

/-- The entry a single ledger bump leaves at its key, as a function of the
key's previous entry: previous count (0 when absent) plus one, stamped at
`now`.  Used to state the ledger theorems. -/
def bumpedEntry (prev : Option LogEntry) (now : Int) : LogEntry :=
  { accessCount := (prev.map (fun e => e.accessCount)).getD 0 + 1,
    lastAccessed := .valid now }

/-- `update_access_log` from `memory_checkpoint.py` (lines 432-452). -/
def update_access_log (entityName : String) (factIds : List String)
    (log : AccessLog) (now : Int) : AccessLog :=
  let slugName := slugify entityName
  factIds.foldl (fun acc fid => bumpLogKey acc (slugName ++ ":" ++ fid) now) log

/-- The per-fact selection of `bump_access_metadata`:
`fact_ids is None or fact.get("id") in fact_ids`. -/
def bumpPred (factIds : Option (List String)) (f : Fact) : Bool :=
  match factIds with
  | none => true
  | some ids => ids.contains f.id

/-- `bump_access_metadata` from `memory_checkpoint.py` (lines 403-429).
Returns the written document (if any), the updated access log, and the
bumped count.  Note the code forwards the ids of every fact in the document
to `update_access_log`, not only the bumped ones. -/
def bump_access_metadata (entityName : String) (existing : Option Doc)
    (log : AccessLog) (factIds : Option (List String)) (now : Int) :
    Option Doc × AccessLog × Nat :=
  match existing with
  | none => (none, log, 0)
  | some doc =>
    let facts := doc.facts.map (fun f =>
      if bumpPred factIds f then
        { f with lastAccessed := some (.valid now), accessCount := some (f.accessCount.getD 0 + 1) }
      else f)
    let bumped := (doc.facts.filter (bumpPred factIds)).length
    let newDoc := { doc with facts := facts }
    let newLog := update_access_log (slugify entityName) (facts.map (fun f => f.id)) log now
    (some newDoc, newLog, bumped)

/-! ## Hydration (`memory-decay.py`, `update_entity_facts`, lines 104-141) -/

/-- The per-fact hydration of `update_entity_facts`: a fact whose
`lastAccessed` key is absent takes the access-log entry for
`"entity:factId"` if present, else the document's `created` date with
count 0. -/
def hydrateFact (log : AccessLog) (entityName : String) (docCreated : PDate)
    (f : Fact) : Fact :=
  match f.lastAccessed with
  | some _ => f
  | none =>
    match assocFind log (entityName ++ ":" ++ f.id) with
    | some e => { f with lastAccessed := some e.lastAccessed, accessCount := some e.accessCount }
    | none => { f with lastAccessed := some docCreated, accessCount := some 0 }

/-- `update_entity_facts` from `memory-decay.py` (lines 104-141): hydrate
every fact, write the document back, and return (written document, active
facts, union of their `relatedEntities`).  `entityName` is the directory
name (`entity_path.name`). -/
def update_entity_facts (log : AccessLog) (entityName : String) (doc : Doc) :
    Doc × List Fact × List String :=
  let facts := doc.facts.map (hydrateFact log entityName doc.created)
  let activeFacts := facts.filter (fun f => f.status == "active")
  let relatedEntities := collectRels activeFacts
  ({ doc with facts := facts }, activeFacts, relatedEntities)

/-! ## Cross-reference propagation
(`memory_checkpoint.py`, `update_entity_cross_references`, lines 362-400) -/

/-- Parse one related-entity path into (entity type for `entity_path_for`,
entity name): `parts = rel_path.split("/")`, needing at least two parts;
under `areas` the subtype is `parts[1]` (three parts required); otherwise
the type is `parts[0].rstrip('s')`.  `none` means the path is skipped. -/
def resolveTarget (relPath : String) : Option (String × String) :=
  let parts := splitSlash relPath
  if parts.length ≥ 2 then
    let refType := parts.headD ""
    let refEntity := parts.getLastD ""
    if refType = "areas" then
      if parts.length ≥ 3 then some (parts.getD 1 "", refEntity) else none
    else
      some (stripTrailingS refType, refEntity)
  else none

/-- The back-reference path written into targets (lines 387-390); the source
entity name is used as passed, without slugification. -/
def back_ref_for (entityType entityName : String) : String :=
  if entityType = "people" || entityType = "companies" then
    "areas/" ++ entityType ++ "/" ++ entityName
  else
    entityType ++ "/" ++ entityName

/-- The per-target mutation (lines 392-397): append the back-reference to the
`relatedEntities` of every `active` fact that does not already contain it. -/
def addBackRef (backRef : String) (doc : Doc) : Doc :=
  { doc with facts := doc.facts.map (fun f =>
      if f.status == "active" then
        if f.relatedEntities.contains backRef then f
        else { f with relatedEntities := f.relatedEntities ++ [backRef] }
      else f) }

/-- `update_entity_cross_references` from `memory_checkpoint.py`
(lines 362-400), over the store of entity documents: targets that do not
parse or whose `facts.json` does not exist are skipped. -/
def update_entity_cross_references (entityType entityName : String)
    (relatedEntities : List String) (store : Store) : Store :=
  relatedEntities.foldl (fun st relPath =>
    match resolveTarget relPath with
    | none => st
    | some (refType, refEntity) =>
      let key := entity_path_for refType refEntity
      match assocFind st key with
      | none => st
      | some doc => assocSet st key (addBackRef (back_ref_for entityType entityName) doc)) store

/-! ## Superseded-chain diagnostic (`memory-decay.py`, lines 228-250) -/

/-- A path matched by `glob(str(para_dir / "areas/*/*"))`: exactly three
components, the first being `areas`. -/
def isAreasEntityPath (path : String) : Bool :=
  let parts := splitSlash path
  parts.length == 3 && parts.headD "" == "areas"

/-- Number of `active` facts in a document. -/
def activeCount (doc : Doc) : Nat :=
  (doc.facts.filter (fun f => f.status == "active")).length

/-- Number of `superseded` facts in a document. -/
def supersededCount (doc : Doc) : Nat :=
  (doc.facts.filter (fun f => f.status == "superseded")).length

/-- `clean_superseded_chains` from `memory-decay.py` (lines 228-250): the
entities it reports.  It only reads documents (and prints), so its result is
the list of flagged entity paths; the store is not modified. -/
def clean_superseded_chains (store : Store) : List String :=
  (store.filter (fun kd =>
    isAreasEntityPath kd.1 && decide (supersededCount kd.2 > activeCount kd.2 * 2))).map
    (fun kd => kd.1)

/-! ## Summary renderers

The marker strings below are the byte sequences found identically in both
source files (the files store them in a doubly-encoded form; we transcribe
the exact character sequences). -/

/-- Hot section header, identical in both scripts. -/
def hotHeader : String := "## ðŸ”¥ Hot (Recent/Frequent)"

/-- Warm section header, identical in both scripts. -/
def warmHeader : String := "## ðŸŒ¡ï¸ Warm (Older)"

/-- Connected-to section header, identical in both scripts. -/
def connectedHeader : String := "## ðŸ”— Connected To"

/-- Milestone marker, identical in both scripts. -/
def milestoneMark : String := "ðŸ“Œ"

/-- Default (non-milestone) marker, identical in both scripts. -/
def paperclipMark : String := "ðŸ“Ž"

/-- Supersession override marker; present only in `memory-decay.py`
(line 198). -/
def supersededMark : String := "ðŸ”„"

/-- Fact line of `regenerate_summary` in `memory-decay.py` (lines 196-199 and
206-209): milestone marker, overridden by the supersession marker when
`fact.get("supersededBy")` is truthy. -/
def factLineDecay (f : Fact) : String :=
  let emoji := if f.category == "milestone" then milestoneMark else paperclipMark
  let emoji := if truthy f.supersededBy then supersededMark else emoji
  "- " ++ emoji ++ " **" ++ f.category ++ "**: " ++ f.fact

/-- Fact line of `regenerate_entity_summary` in `memory_checkpoint.py`
(lines 541-542 and 548-549): milestone marker only, no supersession
override. -/
def factLineCheckpoint (f : Fact) : String :=
  let emoji := if f.category == "milestone" then milestoneMark else paperclipMark
  "- " ++ emoji ++ " **" ++ f.category ++ "**: " ++ f.fact

/-- Title and metadata lines, identical in both renderers (`memory-decay.py`
lines 179-190, `memory_checkpoint.py` lines 525-536); the reason line is
emitted when `createdReason` is truthy (non-empty). -/
def headerLines (title : String) (created lastUpdated : PDate)
    (createdReason : String) : List String :=
  ["# " ++ title, "", "*Entity created: " ++ created.text ++ "*",
   "*Last updated: " ++ lastUpdated.text ++ "*"]
  ++ (if createdReason == "" then [] else ["*Reason: " ++ createdReason ++ "*"])
  ++ [""]

/-- A hot/warm section: header, fact lines, blank line — emitted only when
the bucket is non-empty (identical in both renderers). -/
def sectionLines (header : String) (factLines : List String) : List String :=
  if factLines.isEmpty then [] else header :: factLines ++ [""]

/-- The cold-count line, emitted when the cold bucket is non-empty
(identical in both renderers). -/
def coldLines (coldCount : Nat) : List String :=
  if coldCount == 0 then []
  else ["*(+ " ++ toString coldCount ++ " older facts in facts.json)*"]

/-- The connected-to section over the related-entity set, emitted when
non-empty, entries sorted (identical in both renderers). -/
def connectedLines (relatedEntities : List String) : List String :=
  if relatedEntities.isEmpty then []
  else ["", connectedHeader] ++ (sortStrings relatedEntities).map (fun r => "- " ++ r)

/-- The line assembly shared verbatim by the two renderers (the source text
of `memory-decay.py` lines 169-225 and `memory_checkpoint.py` lines 503-569
is identical except for the tier computation and the per-fact line, which
are therefore parameters): bucket the active facts by tier, emit header,
hot and warm sections, cold count and connected-to section, and return the
joined text with the hot+warm count. -/
def assembleSummary (tierOf : Fact → Tier) (lineFor : Fact → String)
    (title : String) (created lastUpdated : PDate) (createdReason : String)
    (activeFacts : List Fact) (relatedEntities : List String) : String × Nat :=
  let hot := activeFacts.filter (fun f => tierOf f == Tier.hot)
  let warm := activeFacts.filter (fun f => tierOf f == Tier.warm)
  let cold := activeFacts.filter (fun f => tierOf f == Tier.cold)
  let lines := headerLines title created lastUpdated createdReason
    ++ sectionLines hotHeader (hot.map lineFor)
    ++ sectionLines warmHeader (warm.map lineFor)
    ++ coldLines cold.length
    ++ connectedLines relatedEntities
  (joinLines lines, hot.length + warm.length)

/-- `regenerate_summary` from `memory-decay.py` (lines 144-225): the decay
renderer.  `entityName` is the directory name; metadata comes from the (here
always existing) `facts.json`; `activeFacts` and `relatedEntities` are the
outputs of `update_entity_facts`.  Classifies with `categorize_fact` under
the injected config and annotates lines with `factLineDecay` (supersession
override included).  Returns the written summary text and the hot+warm
count the function returns. -/
def regenerate_summary (cfg : Config) (now : Int) (entityName : String) (doc : Doc)
    (activeFacts : List Fact) (relatedEntities : List String) : String × Nat :=
  assembleSummary
    (fun f => categorize_fact cfg now (some (f.lastAccessed.getD doc.created))
      (f.accessCount.getD 0))
    factLineDecay (titleOfSlug entityName) doc.created doc.lastUpdated
    doc.createdReason activeFacts relatedEntities

/-- `regenerate_entity_summary` from `memory_checkpoint.py` (lines 482-569):
the checkpoint renderer.  `none` (no `facts.json`) returns without writing;
otherwise classifies with the inlined hardcoded tier rule (`checkpointTier`),
annotates lines with `factLineCheckpoint` (no supersession override),
recomputes the active facts and their related-entity union from the
document, and returns the written summary text and the hot+warm count.  The
document schema always carries `entity`, so the `entity_name` fallback
parameter of the source never fires and is omitted. -/
def regenerate_entity_summary (now : Int) (existing : Option Doc) :
    Option (String × Nat) :=
  match existing with
  | none => none
  | some data =>
    let activeFacts := data.facts.filter (fun f => f.status == "active")
    some (assembleSummary
      (fun f => checkpointTier now (f.lastAccessed.getD data.created)
        (f.accessCount.getD 0))
      factLineCheckpoint (titleOfSlug data.entity) data.created data.lastUpdated
      data.createdReason activeFacts (collectRels activeFacts))

/-! ## Concrete documents used in witnesses and counterexamples -/

/-- First fact of the `probeDoc` fixture. -/
def probeFact1 : Fact :=
  { id := "pro-001", fact := "old status", category := "status",
    status := "active", created := .valid 0,
    lastAccessed := some (.valid 1), accessCount := some 1,
    relatedEntities := [], supersededBy := none, source := none }

/-- Second fact of the `probeDoc` fixture. -/
def probeFact2 : Fact :=
  { id := "pro-002", fact := "other", category := "context",
    status := "active", created := .valid 1,
    lastAccessed := some (.valid 1), accessCount := some 1,
    relatedEntities := [], supersededBy := none, source := none }

/-- A two-fact project document: pro-001 and pro-002, both active. -/
def probeDoc : Doc :=
  { entity := "probe", entityType := "projects", created := .valid 0,
    lastUpdated := .valid 4, createdReason := "r",
    facts := [probeFact1, probeFact2] }

/-- A fact lacking embedded access stats (no `lastAccessed` key). -/
def hydroFact : Fact :=
  { id := "hyd-001", fact := "h", category := "context", status := "active",
    created := .valid 2, lastAccessed := none, accessCount := none,
    relatedEntities := ["projects/probe"], supersededBy := none, source := none }

/-- A one-fact resource document whose fact lacks access stats. -/
def hydroDoc : Doc :=
  { entity := "hydro", entityType := "resources", created := .valid 2,
    lastUpdated := .valid 3, createdReason := "", facts := [hydroFact] }

/-- A one-fact person document for a cross-reference target. -/
def taraDoc : Doc :=
  { entity := "tara", entityType := "people", created := .valid 0,
    lastUpdated := .valid 1, createdReason := "",
    facts := [{ id := "tar-001", fact := "friend", category := "relationship",
                status := "active", created := .valid 0,
                lastAccessed := some (.valid 0), accessCount := some 1,
                relatedEntities := [], supersededBy := none, source := none }] }

/-- A project document with one active and three superseded facts
(superseded count 3 exceeds twice the active count 1). -/
def chainyDoc : Doc :=
  { entity := "chainy", entityType := "projects", created := .valid 0,
    lastUpdated := .valid 9, createdReason := "",
    facts := [
      { id := "cha-001", fact := "v1", category := "status", status := "superseded",
        created := .valid 0, lastAccessed := some (.valid 0), accessCount := some 1,
        relatedEntities := [], supersededBy := some "cha-002", source := none },
      { id := "cha-002", fact := "v2", category := "status", status := "superseded",
        created := .valid 1, lastAccessed := some (.valid 1), accessCount := some 1,
        relatedEntities := [], supersededBy := some "cha-003", source := none },
      { id := "cha-003", fact := "v3", category := "status", status := "superseded",
        created := .valid 2, lastAccessed := some (.valid 2), accessCount := some 1,
        relatedEntities := [], supersededBy := some "cha-004", source := none },
      { id := "cha-004", fact := "v4", category := "status", status := "active",
        created := .valid 3, lastAccessed := some (.valid 3), accessCount := some 1,
        relatedEntities := [], supersededBy := some "cha-003", source := none }] }

/-! ## C3: tier classifier -/

/-- C3: for every lastAccessedDate, accessCount, now and config, the tier
classifier returns hot when `accessCount ≥ highFreqThreshold` regardless of
age; otherwise hot when `daysSince ≤ hotDays`, warm when
`hotDays < daysSince ≤ warmDays`, cold when `daysSince > warmDays`; a missing
or unparsable date behaves as if last accessed 100 days before now; and the
boundary instances: `daysSince = hotDays` is hot, `hotDays + 1` warm,
`warmDays` warm, `warmDays + 1` cold (for a well-ordered config with
`hotDays < warmDays`), and `accessCount = highFreqThreshold` with
`daysSince = 500` is hot. -/
theorem categorize_fact_spec (cfg : Config) (now : Int) (la : Option PDate) (acc : Nat) :
    (acc ≥ cfg.highFreqThreshold → categorize_fact cfg now la acc = .hot) ∧
    (acc < cfg.highFreqThreshold → cfg.hotDays ≤ cfg.warmDays →
      ((categorize_fact cfg now la acc = .hot ↔ daysSince now la ≤ cfg.hotDays) ∧
       (categorize_fact cfg now la acc = .warm ↔
         (cfg.hotDays < daysSince now la ∧ daysSince now la ≤ cfg.warmDays)) ∧
       (categorize_fact cfg now la acc = .cold ↔ cfg.warmDays < daysSince now la))) ∧
    (∀ s : String,
      categorize_fact cfg now none acc
        = categorize_fact cfg now (some (.valid (now - 100))) acc ∧
      categorize_fact cfg now (some (.invalid s)) acc
        = categorize_fact cfg now (some (.valid (now - 100))) acc) ∧
    (daysSince now la = cfg.hotDays → categorize_fact cfg now la acc = .hot) ∧
    (acc < cfg.highFreqThreshold → cfg.hotDays < cfg.warmDays →
      daysSince now la = cfg.hotDays + 1 → categorize_fact cfg now la acc = .warm) ∧
    (acc < cfg.highFreqThreshold → cfg.hotDays < cfg.warmDays →
      daysSince now la = cfg.warmDays → categorize_fact cfg now la acc = .warm) ∧
    (acc < cfg.highFreqThreshold → cfg.hotDays ≤ cfg.warmDays →
      daysSince now la = cfg.warmDays + 1 → categorize_fact cfg now la acc = .cold) ∧
    (acc = cfg.highFreqThreshold → daysSince now la = 500 →
      categorize_fact cfg now la acc = .hot) := by
  have hsent : now - (now - 100) = 100 := by ring
  refine ⟨?_, ?_, ?_, ?_, ?_, ?_, ?_, ?_⟩
  · intro h
    simp [categorize_fact, h]
  · intro h hcfg
    have hn : ¬ acc ≥ cfg.highFreqThreshold := by omega
    unfold categorize_fact
    rw [if_neg hn]
    split_ifs with h1 h2 <;>
      refine ⟨?_, ?_, ?_⟩ <;> simp_all <;> omega
  · intro s
    constructor <;> simp [categorize_fact, daysSince, hsent]
  · intro h
    unfold categorize_fact
    split_ifs <;> simp_all <;> omega
  · intro h hw hd
    unfold categorize_fact
    split_ifs <;> simp_all <;> omega
  · intro h hw hd
    unfold categorize_fact
    split_ifs <;> simp_all <;> omega
  · intro h hw hd
    unfold categorize_fact
    split_ifs <;> simp_all <;> omega
  · intro h hd
    unfold categorize_fact
    split_ifs <;> simp_all

/-- Witness for C3: with the default config (7, 30, 10) and `now = 1000`, a
fact last accessed at day 970 (daysSince = 30 = warmDays) with 3 accesses is
warm, obtained by instantiating the classifier theorem. -/
theorem categorize_fact_spec_witness :
    categorize_fact ⟨7, 30, 10⟩ 1000 (some (.valid 970)) 3 = .warm :=
  ((categorize_fact_spec ⟨7, 30, 10⟩ 1000 (some (.valid 970)) 3).2.1
    (by decide) (by decide)).2.1.mpr (by constructor <;> decide)

/-! ## C4: duplicate suppression -/

/-- C4: an `appendFact` call whose content exactly matches the content of any
existing fact of the document (whatever that fact's status) returns the
duplicate signal (`none`) and performs no mutation: the returned document —
fact sequence, each fact, `lastUpdatedDate` — is exactly the input
document. -/
theorem append_fact_duplicate (entityType entityName : String) (doc : Doc)
    (content category : String) (rels : List String) (src sup : Option String)
    (now : Int)
    (hdup : (doc.facts.map (fun f => f.fact)).contains content = true) :
    append_fact_to_entity entityType entityName (some doc)
      content category rels src sup now = (doc, none) := by
  unfold append_fact_to_entity
  simp only [hdup]
  simp

/-- Witness for C4: appending the already-present content "Signed contract"
to a one-fact document (whose fact is superseded, showing status does not
matter) changes nothing and returns no fact. -/
theorem append_fact_duplicate_witness :
    append_fact_to_entity "companies" "acme" (some
      { entity := "acme", entityType := "companies", created := .valid 0,
        lastUpdated := .valid 5, createdReason := "",
        facts := [{ id := "acm-001", fact := "Signed contract",
                    category := "milestone", status := "superseded",
                    created := .valid 0, lastAccessed := some (.valid 3),
                    accessCount := some 2, relatedEntities := [],
                    supersededBy := some "acm-002", source := none }] })
      "Signed contract" "milestone" [] none none 9
    = ({ entity := "acme", entityType := "companies", created := .valid 0,
         lastUpdated := .valid 5, createdReason := "",
         facts := [{ id := "acm-001", fact := "Signed contract",
                     category := "milestone", status := "superseded",
                     created := .valid 0, lastAccessed := some (.valid 3),
                     accessCount := some 2, relatedEntities := [],
                     supersededBy := some "acm-002", source := none }] }, none) :=
  append_fact_duplicate "companies" "acme" _ "Signed contract" "milestone"
    [] none none 9 (by decide)

/-! ## Lemmas about the supersession loop -/

/-- The supersession loop never changes fact ids. -/
theorem markSuperseded_map_id (l : List Fact) (sid nid : String) :
    (markSuperseded l sid nid).map (fun f => f.id) = l.map (fun f => f.id) := by
  induction l with
  | nil => rfl
  | cons f rest ih =>
    unfold markSuperseded
    split_ifs with h
    · simp
    · simp [ih]

/-- If no fact matches (id and active status), the supersession loop is the
identity. -/
theorem markSuperseded_nomatch (l : List Fact) (sid nid : String)
    (h : ∀ f ∈ l, ¬ (f.id = sid ∧ f.status = "active")) :
    markSuperseded l sid nid = l := by
  induction l with
  | nil => rfl
  | cons f rest ih =>
    unfold markSuperseded
    rw [if_neg (h f (by simp))]
    rw [ih (fun g hg => h g (by simp [hg]))]

/-- Every fact of the loop's output is either an untouched input fact or the
marked fact (superseded, pointing at the new id). -/
theorem markSuperseded_mem (l : List Fact) (sid nid : String) :
    ∀ f ∈ markSuperseded l sid nid,
      f ∈ l ∨ (f.status = "superseded" ∧ f.supersededBy = some nid) := by
  induction l with
  | nil => intro f hf; cases hf
  | cons g rest ih =>
    intro f hf
    unfold markSuperseded at hf
    by_cases h : g.id = sid ∧ g.status = "active"
    · rw [if_pos h] at hf
      rcases List.mem_cons.mp hf with hf | hf
      · right; rw [hf]; exact ⟨rfl, rfl⟩
      · left; exact List.mem_cons_of_mem g hf
    · rw [if_neg h] at hf
      rcases List.mem_cons.mp hf with hf | hf
      · left; rw [hf]; exact List.mem_cons_self g rest
      · rcases ih f hf with h1 | h1
        · left; exact List.mem_cons_of_mem g h1
        · right; exact h1


/-- A fact of the loop's output whose id is not the superseded id is an
untouched input fact. -/
theorem markSuperseded_mem_of_ne (l : List Fact) (sid nid : String) :
    ∀ f ∈ markSuperseded l sid nid, f.id ≠ sid → f ∈ l := by
  induction l with
  | nil => intro f hf; cases hf
  | cons g rest ih =>
    intro f hf hne
    unfold markSuperseded at hf
    by_cases h : g.id = sid ∧ g.status = "active"
    · rw [if_pos h] at hf
      rcases List.mem_cons.mp hf with hf | hf
      · exact absurd (by rw [hf]; exact h.1) hne
      · exact List.mem_cons_of_mem g hf
    · rw [if_neg h] at hf
      rcases List.mem_cons.mp hf with hf | hf
      · rw [hf]; exact List.mem_cons_self g rest
      · exact List.mem_cons_of_mem g (ih f hf hne)

/-- When an active fact carrying the superseded id exists and the id occurs
at most once, every output fact carrying that id is marked superseded and
points at the new fact's id. -/
theorem markSuperseded_sid (l : List Fact) (sid nid : String)
    (hex : ∃ x ∈ l, x.id = sid ∧ x.status = "active")
    (huniq : (l.filter (fun f => f.id == sid)).length ≤ 1) :
    ∀ f ∈ markSuperseded l sid nid, f.id = sid →
      f.status = "superseded" ∧ f.supersededBy = some nid := by
  induction l with
  | nil => rcases hex with ⟨x, hx, _⟩; cases hx
  | cons g rest ih =>
    intro f hf hfid
    unfold markSuperseded at hf
    by_cases h : g.id = sid ∧ g.status = "active"
    · rw [if_pos h] at hf
      have hrest : (rest.filter (fun f => f.id == sid)).length = 0 := by
        have : ((g :: rest).filter (fun f => f.id == sid)).length
            = 1 + (rest.filter (fun f => f.id == sid)).length := by
          simp [List.filter_cons, h.1, Nat.add_comm]
        omega
      rcases List.mem_cons.mp hf with hf | hf
      · rw [hf]; exact ⟨rfl, rfl⟩
      · exfalso
        have : f ∈ rest.filter (fun f => f.id == sid) :=
          List.mem_filter.mpr ⟨hf, by simp [hfid]⟩
        rw [List.length_eq_zero.mp hrest] at this
        cases this
    · rw [if_neg h] at hf
      have hgid : g.id ≠ sid := by
        intro hgid
        rcases hex with ⟨x, hx, hxid, hxact⟩
        rcases List.mem_cons.mp hx with hx | hx
        · exact h (by rw [hx] at hxid hxact; exact ⟨hxid, hxact⟩)
        · have hxf : x ∈ rest.filter (fun f => f.id == sid) :=
            List.mem_filter.mpr ⟨hx, by simp [hxid]⟩
          have : ((g :: rest).filter (fun f => f.id == sid)).length
              = 1 + (rest.filter (fun f => f.id == sid)).length := by
            simp [List.filter_cons, hgid, Nat.add_comm]
          have hpos : 0 < (rest.filter (fun f => f.id == sid)).length :=
            List.length_pos.mpr (List.ne_nil_of_mem hxf)
          omega
      rcases List.mem_cons.mp hf with hf | hf
      · exact absurd (by rw [hf] at hfid; exact hfid) hgid
      · have hex' : ∃ x ∈ rest, x.id = sid ∧ x.status = "active" := by
          rcases hex with ⟨x, hx, hxprop⟩
          rcases List.mem_cons.mp hx with hx | hx
          · exact absurd (by rw [hx] at hxprop; exact hxprop.1) hgid
          · exact ⟨x, hx, hxprop⟩
        have huniq' : (rest.filter (fun f => f.id == sid)).length ≤ 1 := by
          have : ((g :: rest).filter (fun f => f.id == sid))
              = rest.filter (fun f => f.id == sid) := by
            simp [List.filter_cons, hgid]
          rw [this] at huniq
          exact huniq
        exact ih hex' huniq' f hf hfid

/-! ## C1: supersession -/

/-- C1: an `appendFact` with non-duplicate content and a `supersedesId`
naming a currently active fact X marks X superseded with `supersededBy` set
to the new fact's id, inside the same written document as the insertion of
the new (active) fact, and — for any supersession chain `chain` of ids
containing X's id whose only active member was X — exactly one fact of the
resulting document whose id lies in the chain (or is the new id) is active.
Hypotheses: the content is fresh, an active fact with id `sid` exists, ids
are unique for `sid` and the generated id is fresh (both hold for documents
built by the repository, whose ids are the sequential generated ones). -/
theorem append_fact_supersession (entityType entityName : String) (doc : Doc)
    (content category : String) (rels : List String) (src : Option String)
    (sid : String) (now : Int) (chain : List String) (d' : Doc) (res : Option Fact)
    (hcall : append_fact_to_entity entityType entityName (some doc)
      content category rels src (some sid) now = (d', res))
    (hdup : (doc.facts.map (fun f => f.fact)).contains content = false)
    (hex : doc.facts.any (fun f => f.id == sid && f.status == "active") = true)
    (huniq : (doc.facts.filter (fun f => f.id == sid)).length ≤ 1)
    (hfresh : ∀ f ∈ doc.facts, f.id ≠ generatedId (slugify entityName) doc)
    (hchain : sid ∈ chain)
    (hchainActive : ∀ f ∈ doc.facts, f.id ∈ chain → f.status = "active" → f.id = sid) :
    ∃ nf, res = some nf ∧
      nf.id = generatedId (slugify entityName) doc ∧
      nf.status = "active" ∧
      d'.facts = markSuperseded doc.facts sid nf.id ++ [nf] ∧
      (∀ f ∈ d'.facts, f.id = sid →
        f.status = "superseded" ∧ f.supersededBy = some nf.id) ∧
      ((d'.facts.filter (fun f =>
          (chain.contains f.id || f.id == nf.id) && f.status == "active")).length = 1) := by
  have hexP : ∃ x ∈ doc.facts, x.id = sid ∧ x.status = "active" := by
    simpa using hex
  have hsidne : sid ≠ generatedId (slugify entityName) doc := by
    rcases hexP with ⟨x, hx, hxid, _⟩
    rw [← hxid]
    exact hfresh x hx
  simp only [append_fact_to_entity, hdup, Bool.false_eq_true, if_false] at hcall
  injection hcall with hd hres
  subst hd
  subst hres
  refine ⟨_, rfl, rfl, rfl, rfl, ?_, ?_⟩
  · intro f hf hfid
    simp only [List.mem_append] at hf
    rcases hf with hf | hf
    · exact markSuperseded_sid doc.facts sid _ hexP huniq f hf hfid
    · simp only [List.mem_singleton] at hf
      exfalso
      rw [hf] at hfid
      exact hsidne hfid.symm
  · rw [List.filter_append]
    have hmark : (markSuperseded doc.facts sid
        (generatedId (slugify entityName) doc)).filter (fun f =>
        (chain.contains f.id || f.id == generatedId (slugify entityName) doc)
          && f.status == "active") = [] := by
      rw [List.filter_eq_nil_iff]
      intro f hf hcond
      simp only [Bool.and_eq_true, Bool.or_eq_true, beq_iff_eq] at hcond
      obtain ⟨hin, hact⟩ := hcond
      rcases hin with hin | hin
      · by_cases hfs : f.id = sid
        · have := markSuperseded_sid doc.facts sid _ hexP huniq f hf hfs
          rw [this.1] at hact
          exact absurd hact (by decide)
        · have hfl := markSuperseded_mem_of_ne doc.facts sid _ f hf hfs
          exact hfs (hchainActive f hfl (List.elem_iff.mp hin) hact)
      · have hfl := markSuperseded_mem_of_ne doc.facts sid _ f hf (by rw [hin]; exact hsidne.symm)
        exact hfresh f hfl hin
    rw [hmark]
    simp

/-- Witness for C1: on the two-fact project document `probeDoc` (pro-001 and
pro-002 active), appending with `supersedesId = "pro-001"` succeeds, marks
pro-001 superseded by the new fact pro-003, and the resulting document has
those mutations in the same written document. -/
theorem append_fact_supersession_witness :
    ∃ nf, ((append_fact_to_entity "projects" "probe" (some probeDoc)
        "new status" "status" [] none (some "pro-001") 9).2 = some nf) ∧
      (∀ f ∈ (append_fact_to_entity "projects" "probe" (some probeDoc)
          "new status" "status" [] none (some "pro-001") 9).1.facts,
        f.id = "pro-001" → f.status = "superseded" ∧ f.supersededBy = some "pro-003") := by
  obtain ⟨nf, hres, hid, hstat, hfacts, hmarked, hcount⟩ :=
    append_fact_supersession "projects" "probe" probeDoc "new status" "status"
      [] none "pro-001" 9 ["pro-001"]
      (append_fact_to_entity "projects" "probe" (some probeDoc)
        "new status" "status" [] none (some "pro-001") 9).1
      (append_fact_to_entity "projects" "probe" (some probeDoc)
        "new status" "status" [] none (some "pro-001") 9).2
      rfl (by decide) (by decide) (by decide) (by decide) (by decide) (by decide)
  have hid3 : nf.id = "pro-003" := by rw [hid]; decide
  refine ⟨nf, hres, ?_⟩
  intro f hf hfid
  have h := hmarked f hf hfid
  rw [hid3] at h
  exact h

/-! ## C10: frame effect of a non-matching supersedesId -/

/-- C10: an `appendFact` with non-duplicate content whose `supersedesId` does
not name a currently active fact (the id is absent, or its fact is already
superseded) still succeeds: the new fact is returned and the written document
is the old fact sequence, entirely unchanged, with the new fact appended. -/
theorem append_fact_frame (entityType entityName : String) (doc : Doc)
    (content category : String) (rels : List String) (src : Option String)
    (sid : String) (now : Int)
    (hdup : (doc.facts.map (fun f => f.fact)).contains content = false)
    (hns : ∀ f ∈ doc.facts, ¬ (f.id = sid ∧ f.status = "active")) :
    ∃ nf, (append_fact_to_entity entityType entityName (some doc)
        content category rels src (some sid) now).2 = some nf ∧
      (append_fact_to_entity entityType entityName (some doc)
        content category rels src (some sid) now).1.facts = doc.facts ++ [nf] := by
  have hmark := markSuperseded_nomatch doc.facts sid
    (generatedId (slugify entityName) doc) hns
  refine ⟨{ id := generatedId (slugify entityName) doc, fact := content,
            category := category, status := "active", created := .valid now,
            lastAccessed := some (.valid now), accessCount := some 1,
            relatedEntities := rels, supersededBy := some sid,
            source := some (src.getD "checkpoint") }, ?_, ?_⟩
  · simp only [append_fact_to_entity, hdup, Bool.false_eq_true, if_false]
  · simp only [append_fact_to_entity, hdup, Bool.false_eq_true, if_false, hmark]

/-- Witness for C10: appending to `probeDoc` with the absent id pro-009 as
`supersedesId` still inserts the fact and leaves both old facts unchanged. -/
theorem append_fact_frame_witness :
    ∃ nf, (append_fact_to_entity "projects" "probe" (some probeDoc)
        "brand new" "context" [] none (some "pro-009") 9).2 = some nf ∧
      (append_fact_to_entity "projects" "probe" (some probeDoc)
        "brand new" "context" [] none (some "pro-009") 9).1.facts
        = probeDoc.facts ++ [nf] :=
  append_fact_frame "projects" "probe" probeDoc "brand new" "context" [] none
    "pro-009" 9 (by decide) (by decide)

/-! ## C2: the status/supersededBy invariant -/

/-- Counterexample to C2: appending to `probeDoc` with `supersedesId =
"pro-001"` (an active fact) inserts a new fact whose `supersededBy` is
`some "pro-001"`, not null — `append_fact_to_entity` (line 342 of
`memory_checkpoint.py`) stores the superseded id in the new, active fact,
so an active fact with a non-null `supersededBy` exists and the claimed
equivalence `status = superseded ⟺ supersededBy set` fails right-to-left. -/
theorem append_fact_new_supersededBy_cex :
    ((append_fact_to_entity "projects" "probe" (some probeDoc)
        "new status" "status" [] none (some "pro-001") 9).2.map
      (fun f => f.supersededBy)) = some (some "pro-001") := by decide

/-- Record-level frame of `hydrateFact`: it never changes status or
supersededBy. -/
theorem hydrateFact_frame (log : AccessLog) (entityName : String)
    (docCreated : PDate) (f : Fact) :
    (hydrateFact log entityName docCreated f).status = f.status ∧
    (hydrateFact log entityName docCreated f).supersededBy = f.supersededBy := by
  unfold hydrateFact
  split
  · exact ⟨rfl, rfl⟩
  · split
    · exact ⟨rfl, rfl⟩
    · exact ⟨rfl, rfl⟩

/-- C2 (amended): the operations preserve the forward invariant — a
superseded fact always has `supersededBy` set; every fact newly inserted by
`appendFact` has `status = active`; and its `supersededBy` equals the
`supersedesId` argument, hence is null exactly when no `supersedesId` is
supplied.  When one is supplied, the new active fact carries a non-null
`supersededBy` (see the counterexample), so only this weakened form of the
claimed equivalence is an invariant of the code. -/
theorem supersededBy_invariant (doc : Doc)
    (hinv : ∀ f ∈ doc.facts, f.status = "superseded" → f.supersededBy ≠ none) :
    (∀ entityType entityName content category rels src supId now,
      (∀ f ∈ (append_fact_to_entity entityType entityName (some doc)
          content category rels src supId now).1.facts,
        f.status = "superseded" → f.supersededBy ≠ none) ∧
      (∀ nf, (append_fact_to_entity entityType entityName (some doc)
          content category rels src supId now).2 = some nf →
        nf.status = "active" ∧ nf.supersededBy = supId)) ∧
    (∀ entityName log factIds now doc2 log2 n,
      bump_access_metadata entityName (some doc) log factIds now = (some doc2, log2, n) →
      ∀ f ∈ doc2.facts, f.status = "superseded" → f.supersededBy ≠ none) ∧
    (∀ log entityName,
      ∀ f ∈ (update_entity_facts log entityName doc).1.facts,
        f.status = "superseded" → f.supersededBy ≠ none) ∧
    (∀ backRef, ∀ f ∈ (addBackRef backRef doc).facts,
        f.status = "superseded" → f.supersededBy ≠ none) := by
  refine ⟨?_, ?_, ?_, ?_⟩
  · intro entityType entityName content category rels src supId now
    by_cases hdup : (doc.facts.map (fun f => f.fact)).contains content = true
    · constructor
      · intro f hf
        simp only [append_fact_to_entity, hdup, if_true] at hf
        exact hinv f hf
      · intro nf hnf
        simp only [append_fact_to_entity, hdup, if_true] at hnf
        cases hnf
    · have hdup2 : (doc.facts.map (fun f => f.fact)).contains content = false :=
        Bool.eq_false_iff.mpr (fun h => hdup h)
      constructor
      · intro f hf hstat
        simp only [append_fact_to_entity, hdup2, Bool.false_eq_true, if_false] at hf
        cases supId with
        | none =>
          simp only [List.mem_append, List.mem_singleton] at hf
          rcases hf with hf | hf
          · exact hinv f hf hstat
          · rw [hf] at hstat; simp at hstat
        | some sid =>
          simp only [List.mem_append, List.mem_singleton] at hf
          rcases hf with hf | hf
          · rcases markSuperseded_mem doc.facts sid _ f hf with h1 | h1
            · exact hinv f h1 hstat
            · rw [h1.2]; exact Option.some_ne_none _
          · rw [hf] at hstat; simp at hstat
      · intro nf hnf
        simp only [append_fact_to_entity, hdup2, Bool.false_eq_true, if_false,
          Option.some.injEq] at hnf
        rw [← hnf]
        exact ⟨rfl, rfl⟩
  · intro entityName log factIds now doc2 log2 n hcall
    simp only [bump_access_metadata] at hcall
    injection hcall with h1 h2
    injection h1 with h1
    subst h1
    intro f hf hstat
    rcases List.mem_map.mp hf with ⟨x, hx, hfx⟩
    by_cases hb : bumpPred factIds x = true
    · rw [← hfx, if_pos hb] at hstat ⊢
      exact hinv x hx hstat
    · rw [← hfx, if_neg hb] at hstat ⊢
      exact hinv x hx hstat
  · intro log entityName f hf hstat
    rcases List.mem_map.mp hf with ⟨x, hx, hfx⟩
    obtain ⟨hs, hb⟩ := hydrateFact_frame log entityName doc.created x
    rw [← hfx, hb]
    rw [← hfx, hs] at hstat
    exact hinv x hx hstat
  · intro backRef f hf hstat
    rcases List.mem_map.mp hf with ⟨x, hx, hfx⟩
    by_cases ha : (x.status == "active") = true
    · by_cases hc : x.relatedEntities.contains backRef = true
      · rw [← hfx, if_pos ha, if_pos hc] at hstat ⊢
        exact hinv x hx hstat
      · rw [← hfx, if_pos ha] at hstat ⊢
        rw [if_neg hc] at hstat ⊢
        exact hinv x hx hstat
    · rw [← hfx, if_neg ha] at hstat ⊢
      exact hinv x hx hstat

/-- Witness for C2 (amended): the fact inserted into `probeDoc` by an
append without `supersedesId` is active with a null `supersededBy`,
obtained by instantiating the invariant theorem. -/
theorem supersededBy_invariant_witness :
    ({ id := "pro-003", fact := "brand new 2", category := "context",
       status := "active", created := PDate.valid 9,
       lastAccessed := some (PDate.valid 9), accessCount := some 1,
       relatedEntities := [], supersededBy := none,
       source := some "checkpoint" } : Fact).status = "active" ∧
    ({ id := "pro-003", fact := "brand new 2", category := "context",
       status := "active", created := PDate.valid 9,
       lastAccessed := some (PDate.valid 9), accessCount := some 1,
       relatedEntities := [], supersededBy := none,
       source := some "checkpoint" } : Fact).supersededBy = (none : Option String) :=
  ((supersededBy_invariant probeDoc (by decide)).1 "projects" "probe"
    "brand new 2" "context" [] none none 9).2 _ (by decide)

/-! ## Lemmas about the access ledger -/

/-- Lookup after appending a new binding for an absent key. -/
theorem assocFind_append_of_none {α : Type} {l : List (String × α)} {k : String}
    (l2 : List (String × α)) (h : assocFind l k = none) :
    assocFind (l ++ l2) k = assocFind l2 k := by
  induction l with
  | nil => rfl
  | cons p rest ih =>
    obtain ⟨pk, pv⟩ := p
    simp only [assocFind] at h
    by_cases hk : pk = k
    · rw [if_pos hk] at h; cases h
    · rw [if_neg hk] at h
      rw [List.cons_append]
      simp only [assocFind]
      rw [if_neg hk]
      exact ih h

/-- Lookup in an appended list when the key is bound on the left. -/
theorem assocFind_append_of_some {α : Type} {l : List (String × α)} {k : String}
    {v : α} (l2 : List (String × α)) (h : assocFind l k = some v) :
    assocFind (l ++ l2) k = some v := by
  induction l with
  | nil => cases h
  | cons p rest ih =>
    obtain ⟨pk, pv⟩ := p
    simp only [assocFind] at h
    rw [List.cons_append]
    simp only [assocFind]
    by_cases hk : pk = k
    · rw [if_pos hk] at h ⊢
      exact h
    · rw [if_neg hk] at h ⊢
      exact ih h

/-- Lookup after an in-place update at a bound key. -/
theorem assocFind_assocSet_self {α : Type} {l : List (String × α)} {k : String}
    {w : α} (v : α) (h : assocFind l k = some w) :
    assocFind (assocSet l k v) k = some v := by
  induction l with
  | nil => cases h
  | cons p rest ih =>
    obtain ⟨pk, pv⟩ := p
    simp only [assocFind] at h
    simp only [assocSet]
    by_cases hk : pk = k
    · rw [if_pos hk]
      simp only [assocFind]
      rw [if_pos hk]
    · rw [if_neg hk]
      simp only [assocFind]
      rw [if_neg hk]
      rw [if_neg hk] at h
      exact ih h

/-- An in-place update leaves other keys unchanged. -/
theorem assocFind_assocSet_ne {α : Type} (l : List (String × α)) (k k' : String)
    (v : α) (h : k' ≠ k) : assocFind (assocSet l k v) k' = assocFind l k' := by
  induction l with
  | nil => rfl
  | cons p rest ih =>
    obtain ⟨pk, pv⟩ := p
    simp only [assocSet]
    by_cases hk : pk = k
    · rw [if_pos hk]
      simp only [assocFind]
      rw [if_neg (by rw [hk]; exact fun hh => h hh.symm),
        if_neg (by rw [hk]; exact fun hh => h hh.symm)]
    · rw [if_neg hk]
      simp only [assocFind]
      by_cases hk2 : pk = k'
      · rw [if_pos hk2, if_pos hk2]
      · rw [if_neg hk2, if_neg hk2]
        exact ih

/-- One ledger bump at a key: the entry's count becomes the previous count
(0 when absent) plus one, stamped at `now`. -/
theorem bumpLogKey_find_self (log : AccessLog) (key : String) (now : Int) :
    assocFind (bumpLogKey log key now) key
      = some (bumpedEntry (assocFind log key) now) := by
  unfold bumpLogKey
  cases h : assocFind log key with
  | none =>
    rw [assocFind_append_of_none _ h]
    simp [assocFind, bumpedEntry]
  | some e =>
    rw [assocFind_assocSet_self _ h]
    simp [bumpedEntry]

/-- One ledger bump leaves other keys unchanged. -/
theorem bumpLogKey_find_ne (log : AccessLog) (key : String) (now : Int)
    (k : String) (h : k ≠ key) :
    assocFind (bumpLogKey log key now) k = assocFind log k := by
  unfold bumpLogKey
  cases hf : assocFind log key with
  | none =>
    cases hk : assocFind log k with
    | none =>
      rw [assocFind_append_of_none _ hk]
      simp [assocFind, Ne.symm h]
    | some v => rw [assocFind_append_of_some _ hk]
  | some e => exact assocFind_assocSet_ne _ _ _ _ h

/-- Appending to a string is injective on the appended part. -/
theorem string_append_cancel {s a b : String} (h : s ++ a = s ++ b) : a = b := by
  have hd := congrArg String.data h
  simp only [String.data_append] at hd
  exact String.ext (List.append_cancel_left hd)

/-- Folding ledger bumps over keys built from ids leaves unrelated keys
unchanged. -/
theorem foldl_bump_find_ne (pre : String) (ids : List String) (log : AccessLog)
    (now : Int) (k : String) (h : ∀ fid ∈ ids, k ≠ pre ++ ":" ++ fid) :
    assocFind (ids.foldl (fun acc fid => bumpLogKey acc (pre ++ ":" ++ fid) now) log) k
      = assocFind log k := by
  induction ids generalizing log with
  | nil => rfl
  | cons i rest ih =>
    rw [List.foldl_cons]
    rw [ih _ (fun fid hf => h fid (List.mem_cons_of_mem i hf))]
    exact bumpLogKey_find_ne _ _ _ _ (h i (List.mem_cons_self i rest))

/-- Folding ledger bumps over duplicate-free ids bumps each id's key exactly
once relative to the initial ledger. -/
theorem foldl_bump_find_mem (pre : String) (ids : List String) (log : AccessLog)
    (now : Int) (fid : String) (hmem : fid ∈ ids) (hnodup : ids.Nodup) :
    assocFind (ids.foldl (fun acc fid => bumpLogKey acc (pre ++ ":" ++ fid) now) log)
        (pre ++ ":" ++ fid)
      = some (bumpedEntry (assocFind log (pre ++ ":" ++ fid)) now) := by
  induction ids generalizing log with
  | nil => cases hmem
  | cons i rest ih =>
    have hhead : i ∉ rest := (List.nodup_cons.mp hnodup).1
    rw [List.foldl_cons]
    rcases List.mem_cons.mp hmem with hf | hf
    · subst hf
      rw [foldl_bump_find_ne]
      · exact bumpLogKey_find_self log _ now
      · intro fid2 hf2 he
        have hi : fid = fid2 := string_append_cancel he
        rw [hi] at hhead
        exact hhead hf2
    · have hne : fid ≠ i := fun he => hhead (he ▸ hf)
      rw [ih _ hf (List.nodup_cons.mp hnodup).2]
      rw [bumpLogKey_find_ne _ _ _ _
        (fun he => hne (string_append_cancel he))]

/-! ## C5: access bumping -/

/-- Counterexample to C5: bumping only fact pro-001 of `probeDoc`
(`factIds = ["pro-001"]`, return value 1) nevertheless forwards a ledger
bump for the unaffected fact pro-002 — `bump_access_metadata` (line 427 of
`memory_checkpoint.py`) passes every fact id of the document to
`update_access_log`, not only the affected ones. -/
theorem bump_access_forwards_all_cex :
    assocFind (bump_access_metadata "probe" (some probeDoc) []
        (some ["pro-001"]) 50).2.1 "probe:pro-002"
      = some (bumpedEntry none 50) ∧
    (bump_access_metadata "probe" (some probeDoc) []
        (some ["pro-001"]) 50).2.2 = 1 := by
  constructor <;> decide

/-- C5 (amended): with no document the call returns 0 and changes nothing;
otherwise exactly the facts selected by `factIds` (all facts when omitted)
get `accessCount` incremented and `lastAccessedDate` set to now, the call
returns the number of facts so bumped, and the same bump is forwarded to the
Access Ledger for every fact id of the document — not only for the affected
ones — and for no key outside the document's fact ids. -/
theorem bump_access_spec (entityName : String) (doc : Doc) (log : AccessLog)
    (factIds : Option (List String)) (now : Int)
    (hnodup : (doc.facts.map (fun f => f.id)).Nodup) :
    (bump_access_metadata entityName none log factIds now = (none, log, 0)) ∧
    ((bump_access_metadata entityName (some doc) log factIds now).2.2
      = (doc.facts.filter (bumpPred factIds)).length) ∧
    ((bump_access_metadata entityName (some doc) log factIds now).1
      = some { doc with facts := doc.facts.map (fun f =>
          if bumpPred factIds f then
            { f with lastAccessed := some (.valid now),
                     accessCount := some (f.accessCount.getD 0 + 1) }
          else f) }) ∧
    (∀ f ∈ doc.facts,
      assocFind (bump_access_metadata entityName (some doc) log factIds now).2.1
          (slugify (slugify entityName) ++ ":" ++ f.id)
        = some (bumpedEntry
            (assocFind log (slugify (slugify entityName) ++ ":" ++ f.id)) now)) ∧
    (∀ k, (∀ f ∈ doc.facts, k ≠ slugify (slugify entityName) ++ ":" ++ f.id) →
      assocFind (bump_access_metadata entityName (some doc) log factIds now).2.1 k
        = assocFind log k) := by
  have hids : (doc.facts.map (fun f =>
      if bumpPred factIds f then
        { f with lastAccessed := some (PDate.valid now),
                 accessCount := some (f.accessCount.getD 0 + 1) }
      else f)).map (fun f => f.id) = doc.facts.map (fun f => f.id) := by
    rw [List.map_map]
    apply List.map_congr_left
    intro f _
    by_cases hb : bumpPred factIds f = true
    · simp [hb]
    · simp [hb]
  refine ⟨rfl, rfl, rfl, ?_, ?_⟩
  · intro f hf
    show assocFind (update_access_log (slugify entityName) _ log now) _ = _
    unfold update_access_log
    rw [hids]
    exact foldl_bump_find_mem (slugify (slugify entityName)) _ log now f.id
      (List.mem_map_of_mem _ hf) hnodup
  · intro k hk
    show assocFind (update_access_log (slugify entityName) _ log now) k = _
    unfold update_access_log
    rw [hids]
    apply foldl_bump_find_ne
    intro fid hfid
    rcases List.mem_map.mp hfid with ⟨f, hf, rfl⟩
    exact hk f hf

/-- Witness for C5 (amended): bumping pro-001 of `probeDoc` over an empty
ledger leaves "probe:pro-001" with count 1 stamped at day 50, obtained by
instantiating the theorem at fact pro-001. -/
theorem bump_access_spec_witness :
    assocFind (bump_access_metadata "probe" (some probeDoc) []
        (some ["pro-001"]) 50).2.1 "probe:pro-001"
      = some (bumpedEntry none 50) :=
  (bump_access_spec "probe" probeDoc [] (some ["pro-001"]) 50
    (by decide)).2.2.2.1 probeFact1 (by decide)

/-! ## Lemmas about hydration and related-entity collection -/

/-- Hydration always leaves a `lastAccessed` value in place. -/
theorem hydrateFact_isSome (log : AccessLog) (entityName : String)
    (docCreated : PDate) (f : Fact) :
    (hydrateFact log entityName docCreated f).lastAccessed.isSome = true := by
  unfold hydrateFact
  split
  · rename_i d hd
    rw [hd]
    rfl
  · split
    · rfl
    · rfl

/-- Hydration does not touch a fact that already has embedded stats. -/
theorem hydrateFact_of_isSome (log : AccessLog) (entityName : String)
    (docCreated : PDate) (f : Fact) (h : f.lastAccessed.isSome = true) :
    hydrateFact log entityName docCreated f = f := by
  unfold hydrateFact
  split
  · rfl
  · rename_i hn
    rw [hn] at h
    cases h

/-- Membership in a Python-set insertion. -/
theorem mem_insertUnique (l : List String) (x r : String) :
    r ∈ insertUnique l x ↔ r ∈ l ∨ r = x := by
  unfold insertUnique
  split
  · rename_i hc
    constructor
    · exact Or.inl
    · intro h
      rcases h with h | h
      · exact h
      · rw [h]
        exact List.elem_iff.mp hc
  · simp

/-- Membership after folding a list of additions into a Python set. -/
theorem mem_foldl_insertUnique (rels : List String) (acc : List String) (r : String) :
    r ∈ rels.foldl insertUnique acc ↔ r ∈ acc ∨ r ∈ rels := by
  induction rels generalizing acc with
  | nil => simp
  | cons x rest ih =>
    rw [List.foldl_cons, ih, mem_insertUnique]
    constructor
    · intro h
      rcases h with (h | h) | h
      · exact Or.inl h
      · exact Or.inr (by rw [h]; exact List.mem_cons_self x rest)
      · exact Or.inr (List.mem_cons_of_mem x h)
    · intro h
      rcases h with h | h
      · exact Or.inl (Or.inl h)
      · rcases List.mem_cons.mp h with h | h
        · exact Or.inl (Or.inr h)
        · exact Or.inr h

/-- Membership in the collected related-entity set, with an accumulator. -/
theorem mem_collectRels_aux (facts : List Fact) (acc : List String) (r : String) :
    r ∈ facts.foldl (fun acc f => f.relatedEntities.foldl insertUnique acc) acc ↔
      r ∈ acc ∨ ∃ f ∈ facts, r ∈ f.relatedEntities := by
  induction facts generalizing acc with
  | nil => simp
  | cons f rest ih =>
    rw [List.foldl_cons, ih, mem_foldl_insertUnique]
    constructor
    · intro h
      rcases h with (h | h) | h
      · exact Or.inl h
      · exact Or.inr ⟨f, List.mem_cons_self f rest, h⟩
      · rcases h with ⟨g, hg, hr⟩
        exact Or.inr ⟨g, List.mem_cons_of_mem f hg, hr⟩
    · intro h
      rcases h with h | ⟨g, hg, hr⟩
      · exact Or.inl (Or.inl h)
      · rcases List.mem_cons.mp hg with hh | hh
        · exact Or.inl (Or.inr (hh ▸ hr))
        · exact Or.inr ⟨g, hh, hr⟩

/-- Membership in the collected related-entity set of a fact list. -/
theorem mem_collectRels (facts : List Fact) (r : String) :
    r ∈ collectRels facts ↔ ∃ f ∈ facts, r ∈ f.relatedEntities := by
  unfold collectRels
  rw [mem_collectRels_aux]
  simp

/-! ## C6: hydration (loadActiveFacts) -/

/-- C6: `update_entity_facts` hydrates exactly the facts lacking embedded
access stats — from the Access Ledger entry keyed `entity:factId` when
present, else from the document's `created` date with count 0 — persists the
result back (a second run, with any ledger, is the identity, so the fallback
runs at most once per fact), and returns exactly the active-status facts of
the written document together with the union of their `relatedEntities`. -/
theorem update_entity_facts_spec (log : AccessLog) (entityName : String) (doc : Doc) :
    ((update_entity_facts log entityName doc).1.facts.length = doc.facts.length) ∧
    (∀ i (hi : i < doc.facts.length)
        (hi2 : i < (update_entity_facts log entityName doc).1.facts.length),
      (((doc.facts.get ⟨i, hi⟩).lastAccessed.isSome = true →
        (update_entity_facts log entityName doc).1.facts.get ⟨i, hi2⟩
          = doc.facts.get ⟨i, hi⟩) ∧
       ((doc.facts.get ⟨i, hi⟩).lastAccessed = none →
        ∀ e, assocFind log (entityName ++ ":" ++ (doc.facts.get ⟨i, hi⟩).id) = some e →
          (update_entity_facts log entityName doc).1.facts.get ⟨i, hi2⟩
            = { doc.facts.get ⟨i, hi⟩ with
                lastAccessed := some e.lastAccessed,
                accessCount := some e.accessCount }) ∧
       ((doc.facts.get ⟨i, hi⟩).lastAccessed = none →
        assocFind log (entityName ++ ":" ++ (doc.facts.get ⟨i, hi⟩).id) = none →
          (update_entity_facts log entityName doc).1.facts.get ⟨i, hi2⟩
            = { doc.facts.get ⟨i, hi⟩ with
                lastAccessed := some doc.created,
                accessCount := some 0 }))) ∧
    (∀ log2, update_entity_facts log2 entityName
        (update_entity_facts log entityName doc).1
      = update_entity_facts log entityName doc) ∧
    ((update_entity_facts log entityName doc).2.1
      = (update_entity_facts log entityName doc).1.facts.filter
          (fun f => f.status == "active")) ∧
    (∀ r, r ∈ (update_entity_facts log entityName doc).2.2 ↔
      ∃ f ∈ (update_entity_facts log entityName doc).2.1, r ∈ f.relatedEntities) := by
  refine ⟨by simp [update_entity_facts], ?_, ?_, rfl, ?_⟩
  · intro i hi hi2
    have hget : (update_entity_facts log entityName doc).1.facts.get ⟨i, hi2⟩
        = hydrateFact log entityName doc.created (doc.facts.get ⟨i, hi⟩) := by
      show (doc.facts.map (hydrateFact log entityName doc.created)).get _ = _
      rw [List.get_map]
    refine ⟨?_, ?_, ?_⟩
    · intro hsome
      rw [hget]
      exact hydrateFact_of_isSome _ _ _ _ hsome
    · intro hnone e he
      rw [hget]
      unfold hydrateFact
      rw [hnone, he]
    · intro hnone he
      rw [hget]
      unfold hydrateFact
      rw [hnone, he]
  · intro log2
    have hfacts : (update_entity_facts log entityName doc).1.facts.map
        (hydrateFact log2 entityName (update_entity_facts log entityName doc).1.created)
        = (update_entity_facts log entityName doc).1.facts := by
      have hid : ∀ g ∈ (update_entity_facts log entityName doc).1.facts,
          hydrateFact log2 entityName (update_entity_facts log entityName doc).1.created g = g := by
        intro g hg
        rcases List.mem_map.mp hg with ⟨x, _, hxg⟩
        apply hydrateFact_of_isSome
        rw [← hxg]
        exact hydrateFact_isSome log entityName doc.created x
      rw [List.map_congr_left hid]
      simp
    show ({ (update_entity_facts log entityName doc).1 with
        facts := (update_entity_facts log entityName doc).1.facts.map
          (hydrateFact log2 entityName (update_entity_facts log entityName doc).1.created) },
      _, _) = _
    rw [hfacts]
    rfl
  · intro r
    show r ∈ collectRels _ ↔ _
    exact mem_collectRels _ r

/-- Witness for C6: hydrating `hydroDoc` (whose single fact hyd-001 lacks
stats) against a ledger holding an entry for "hydro:hyd-001" copies that
entry's count and date into the fact, obtained by instantiating the
theorem at index 0. -/
theorem update_entity_facts_spec_witness :
    (update_entity_facts [("hydro:hyd-001", { accessCount := 4, lastAccessed := .valid 7 })]
        "hydro" hydroDoc).1.facts.get ⟨0, by decide⟩
      = { hydroFact with lastAccessed := some (.valid 7), accessCount := some 4 } :=
  ((update_entity_facts_spec
      [("hydro:hyd-001", { accessCount := 4, lastAccessed := .valid 7 })]
      "hydro" hydroDoc).2.1 0 (by decide) (by decide)).2.1 (by decide)
    { accessCount := 4, lastAccessed := .valid 7 } (by decide)

/-! ## Lemmas about cross-reference propagation -/

/-- After one back-reference pass, every active fact contains the
back-reference. -/
theorem addBackRef_active_mem (backRef : String) (doc : Doc) :
    ∀ f ∈ (addBackRef backRef doc).facts, f.status = "active" →
      backRef ∈ f.relatedEntities := by
  intro f hf hstat
  rcases List.mem_map.mp hf with ⟨x, hx, hfx⟩
  by_cases ha : (x.status == "active") = true
  · by_cases hc : x.relatedEntities.contains backRef = true
    · rw [← hfx, if_pos ha, if_pos hc]
      rw [← hfx, if_pos ha, if_pos hc] at hstat
      exact List.elem_iff.mp hc
    · rw [← hfx, if_pos ha, if_neg hc]
      exact List.mem_append_right _ (List.mem_singleton_self backRef)
  · rw [← hfx, if_neg ha] at hstat
    exact absurd (beq_iff_eq .. |>.mpr hstat) ha

/-- After one back-reference pass, every active fact whose back-reference
count was at most one carries it exactly once. -/
theorem addBackRef_active_count (backRef : String) (doc : Doc)
    (hcnt : ∀ f ∈ doc.facts, f.status = "active" →
      f.relatedEntities.count backRef ≤ 1) :
    ∀ f ∈ (addBackRef backRef doc).facts, f.status = "active" →
      f.relatedEntities.count backRef = 1 := by
  intro f hf hstat
  rcases List.mem_map.mp hf with ⟨x, hx, hfx⟩
  by_cases ha : (x.status == "active") = true
  · have hxa : x.status = "active" := beq_iff_eq .. |>.mp ha
    by_cases hc : x.relatedEntities.contains backRef = true
    · rw [← hfx, if_pos ha, if_pos hc]
      have h1 : 0 < x.relatedEntities.count backRef :=
        List.count_pos_iff_mem.mpr (List.elem_iff.mp hc)
      have h2 := hcnt x hx hxa
      omega
    · rw [← hfx, if_pos ha, if_neg hc]
      have h0 : x.relatedEntities.count backRef = 0 :=
        List.count_eq_zero.mpr (fun hmem => hc (List.elem_iff.mpr hmem))
      simp [List.count_append, h0]
  · rw [← hfx, if_neg ha] at hstat
    exact absurd (beq_iff_eq .. |>.mpr hstat) ha

/-- The back-reference pass is the identity on a document whose active facts
already contain the back-reference. -/
theorem addBackRef_of_contained (backRef : String) (doc : Doc)
    (h : ∀ f ∈ doc.facts, f.status = "active" → backRef ∈ f.relatedEntities) :
    addBackRef backRef doc = doc := by
  unfold addBackRef
  have : doc.facts.map (fun f =>
      if f.status == "active" then
        if f.relatedEntities.contains backRef then f
        else { f with relatedEntities := f.relatedEntities ++ [backRef] }
      else f) = doc.facts := by
    have hid : ∀ f ∈ doc.facts, (fun f =>
        if f.status == "active" then
          if f.relatedEntities.contains backRef then f
          else { f with relatedEntities := f.relatedEntities ++ [backRef] }
        else f) f = f := by
      intro f hf
      beta_reduce
      by_cases ha : (f.status == "active") = true
      · rw [if_pos ha, if_pos (List.elem_iff.mpr (h f hf (beq_iff_eq .. |>.mp ha)))]
      · rw [if_neg ha]
    rw [List.map_congr_left hid]
    simp
  rw [this]

/-- The back-reference pass is idempotent. -/
theorem addBackRef_idem (backRef : String) (doc : Doc) :
    addBackRef backRef (addBackRef backRef doc) = addBackRef backRef doc :=
  addBackRef_of_contained backRef (addBackRef backRef doc)
    (addBackRef_active_mem backRef doc)

/-- Through a whole propagation pass, the document stored at a key is either
untouched or has received the back-reference pass (collapsed by
idempotence). -/
theorem ucr_find_or (entityType entityName : String) (relPaths : List String)
    (store : Store) (key : String) (doc : Doc)
    (hfind : assocFind store key = some doc) :
    assocFind (update_entity_cross_references entityType entityName relPaths store)
        key = some doc ∨
    assocFind (update_entity_cross_references entityType entityName relPaths store)
        key = some (addBackRef (back_ref_for entityType entityName) doc) := by
  unfold update_entity_cross_references
  induction relPaths generalizing store doc with
  | nil => exact Or.inl hfind
  | cons p rest ih =>
    rw [List.foldl_cons]
    cases hres : resolveTarget p with
    | none =>
      simp only [hres]
      exact ih store doc hfind
    | some target =>
      obtain ⟨rt, rn⟩ := target
      simp only [hres]
      cases hf2 : assocFind store (entity_path_for rt rn) with
      | none =>
        simp only [hf2]
        exact ih store doc hfind
      | some d2 =>
        simp only [hf2]
        by_cases hkey : entity_path_for rt rn = key
        · subst hkey
          have hd2 : d2 = doc := by
            rw [hfind] at hf2
            exact (Option.some.injEq .. ▸ hf2).symm
          subst hd2
          have hset : assocFind (assocSet store (entity_path_for rt rn)
              (addBackRef (back_ref_for entityType entityName) d2))
              (entity_path_for rt rn)
              = some (addBackRef (back_ref_for entityType entityName) d2) :=
            assocFind_assocSet_self _ hfind
          rcases ih _ _ hset with h | h
          · exact Or.inr h
          · rw [addBackRef_idem] at h
            exact Or.inr h
        · have hset : assocFind (assocSet store (entity_path_for rt rn)
              (addBackRef (back_ref_for entityType entityName) d2)) key
              = some doc := by
            rw [assocFind_assocSet_ne _ _ _ _ (fun he => hkey he.symm)]
            exact hfind
          exact ih _ _ hset

/-! ## C7: cross-reference propagation -/

/-- C7: for every propagate call, each target path that resolves (in the
code's sense: it parses and its entity document exists in the store) has the
source's back-reference added to the `relatedEntities` of every active fact
of its document, skipping facts that already contain it — so, provided each
active fact held the back-reference at most once (set semantics), after the
call every active fact holds it exactly once, and a second identical
propagation leaves that document unchanged.  Target paths that do not
resolve are ignored: when no path of the call resolves, the store is
returned without error, completely unchanged. -/
theorem update_entity_cross_references_spec (entityType entityName : String) :
    (∀ (store : Store) (relPaths : List String) (p refType refEntity : String)
        (doc : Doc),
      p ∈ relPaths →
      resolveTarget p = some (refType, refEntity) →
      assocFind store (entity_path_for refType refEntity) = some doc →
      (∀ f ∈ doc.facts, f.status = "active" →
        f.relatedEntities.count (back_ref_for entityType entityName) ≤ 1) →
      ∃ doc2,
        assocFind (update_entity_cross_references entityType entityName relPaths
            store) (entity_path_for refType refEntity) = some doc2 ∧
        (∀ f ∈ doc2.facts, f.status = "active" →
          back_ref_for entityType entityName ∈ f.relatedEntities ∧
          f.relatedEntities.count (back_ref_for entityType entityName) = 1) ∧
        assocFind (update_entity_cross_references entityType entityName relPaths
            (update_entity_cross_references entityType entityName relPaths store))
            (entity_path_for refType refEntity) = some doc2) ∧
    (∀ (store : Store) (relPaths : List String),
      (∀ q ∈ relPaths, ∀ rt rn, resolveTarget q = some (rt, rn) →
        assocFind store (entity_path_for rt rn) = none) →
      update_entity_cross_references entityType entityName relPaths store
        = store) := by
  constructor
  · intro store relPaths p refType refEntity doc hp hres hfind hcnt
    have h1 : assocFind (update_entity_cross_references entityType entityName
        relPaths store) (entity_path_for refType refEntity)
        = some (addBackRef (back_ref_for entityType entityName) doc) := by
      rcases List.append_of_mem hp with ⟨l1, l2, rfl⟩
      unfold update_entity_cross_references
      rw [List.foldl_append, List.foldl_cons]
      rcases ucr_find_or entityType entityName l1 store
        (entity_path_for refType refEntity) doc hfind with h | h
      · unfold update_entity_cross_references at h
        simp only [hres, h]
        have hset := assocFind_assocSet_self
          (addBackRef (back_ref_for entityType entityName) doc) h
        rcases ucr_find_or entityType entityName l2 _
          (entity_path_for refType refEntity) _ hset with h2 | h2
        · unfold update_entity_cross_references at h2
          exact h2
        · unfold update_entity_cross_references at h2
          rw [addBackRef_idem] at h2
          exact h2
      · unfold update_entity_cross_references at h
        simp only [hres, h]
        rw [addBackRef_idem]
        have hset := assocFind_assocSet_self
          (addBackRef (back_ref_for entityType entityName) doc) h
        rcases ucr_find_or entityType entityName l2 _
          (entity_path_for refType refEntity) _ hset with h2 | h2
        · unfold update_entity_cross_references at h2
          exact h2
        · unfold update_entity_cross_references at h2
          rw [addBackRef_idem] at h2
          exact h2
    refine ⟨addBackRef (back_ref_for entityType entityName) doc, h1, ?_, ?_⟩
    · intro f hf hstat
      exact ⟨addBackRef_active_mem _ doc f hf hstat,
        addBackRef_active_count _ doc hcnt f hf hstat⟩
    · rcases ucr_find_or entityType entityName relPaths _
        (entity_path_for refType refEntity) _ h1 with h2 | h2
      · exact h2
      · rw [addBackRef_idem] at h2
        exact h2
  · intro store relPaths h
    unfold update_entity_cross_references
    induction relPaths with
    | nil => rfl
    | cons q rest ih =>
      rw [List.foldl_cons]
      cases hres : resolveTarget q with
      | none =>
        simp only [hres]
        exact ih (fun q2 hq2 rt rn hres2 => h q2 (List.mem_cons_of_mem q hq2) rt rn hres2)
      | some target =>
        obtain ⟨rt, rn⟩ := target
        simp only [hres]
        rw [h q (List.mem_cons_self q rest) rt rn hres]
        exact ih (fun q2 hq2 rt2 rn2 hres2 => h q2 (List.mem_cons_of_mem q hq2) rt2 rn2 hres2)

/-- Witness for C7: propagating the back-reference of projects/probe to the
resolving target path "areas/people/tara" puts "projects/probe" exactly once
into the active fact of tara's document, and a second propagation changes
nothing — obtained by instantiating the propagation theorem. -/
theorem update_entity_cross_references_spec_witness :
    ∃ doc2,
      assocFind (update_entity_cross_references "projects" "probe"
          ["areas/people/tara"] [("areas/people/tara", taraDoc)])
          (entity_path_for "people" "tara") = some doc2 ∧
      (∀ f ∈ doc2.facts, f.status = "active" →
        back_ref_for "projects" "probe" ∈ f.relatedEntities ∧
        f.relatedEntities.count (back_ref_for "projects" "probe") = 1) ∧
      assocFind (update_entity_cross_references "projects" "probe"
          ["areas/people/tara"]
          (update_entity_cross_references "projects" "probe"
            ["areas/people/tara"] [("areas/people/tara", taraDoc)]))
          (entity_path_for "people" "tara") = some doc2 :=
  (update_entity_cross_references_spec "projects" "probe").1
    [("areas/people/tara", taraDoc)] ["areas/people/tara"]
    "areas/people/tara" "people" "tara" taraDoc
    (by decide) (by decide) (by decide) (by decide)

/-! ## C9: the superseded-chain diagnostic -/

/-- Counterexample to C9: a store holding a single project entity whose
superseded count (3) exceeds twice its active count (1) is not flagged —
`clean_superseded_chains` only globs `areas/*/*`, so project and resource
entities are never examined. -/
theorem clean_superseded_chains_misses_projects_cex :
    supersededCount chainyDoc > activeCount chainyDoc * 2 ∧
    clean_superseded_chains [("projects/chainy", chainyDoc)] = [] := by
  constructor <;> decide

/-- C9 (amended): the diagnostic flags exactly the entities whose path lies
under the areas grouping (the person/company collections, `areas/*/*`) and
whose superseded-fact count exceeds twice the active-fact count; entities of
the projects and resources collections are not examined.  The diagnostic is
a pure report over the store: it returns the flagged paths and writes
nothing. -/
theorem clean_superseded_chains_spec (store : Store) (k : String) :
    k ∈ clean_superseded_chains store ↔
      ∃ doc, (k, doc) ∈ store ∧ isAreasEntityPath k = true ∧
        supersededCount doc > activeCount doc * 2 := by
  unfold clean_superseded_chains
  rw [List.mem_map]
  constructor
  · rintro ⟨kd, hkd, rfl⟩
    obtain ⟨hmem, hcond⟩ := List.mem_filter.mp hkd
    simp only [Bool.and_eq_true, decide_eq_true_eq] at hcond
    exact ⟨kd.2, hmem, hcond.1, hcond.2⟩
  · rintro ⟨doc, hmem, hareas, hcond⟩
    exact ⟨(k, doc), List.mem_filter.mpr ⟨hmem, by simp [hareas, hcond]⟩, rfl⟩

/-! ## Lemmas about the two renderers -/

/-- The checkpoint renderer's inlined tier rule is the decay classifier at
the hardcoded config (7, 30, 10). -/
theorem checkpointTier_eq (now : Int) (d : PDate) (acc : Nat) :
    checkpointTier now d acc = categorize_fact ⟨7, 30, 10⟩ now (some d) acc := by
  cases d <;> rfl

/-- On a fact whose `supersededBy` is not truthy, the two fact lines
coincide. -/
theorem factLine_eq (f : Fact) (h : truthy f.supersededBy = false) :
    factLineDecay f = factLineCheckpoint f := by
  unfold factLineDecay factLineCheckpoint
  rw [h]
  simp

/-- The shared assembly only depends on the tier and line functions through
their values on the given facts. -/
theorem assembleSummary_congr (tier1 tier2 : Fact → Tier)
    (line1 line2 : Fact → String) (title : String)
    (created lastUpdated : PDate) (createdReason : String)
    (activeFacts : List Fact) (relatedEntities : List String)
    (htier : ∀ f ∈ activeFacts, tier1 f = tier2 f)
    (hline : ∀ f ∈ activeFacts, line1 f = line2 f) :
    assembleSummary tier1 line1 title created lastUpdated createdReason
        activeFacts relatedEntities
      = assembleSummary tier2 line2 title created lastUpdated createdReason
        activeFacts relatedEntities := by
  unfold assembleSummary
  dsimp only
  have hhot : activeFacts.filter (fun f => tier1 f == Tier.hot)
      = activeFacts.filter (fun f => tier2 f == Tier.hot) :=
    List.filter_congr (fun f hf => by rw [htier f hf])
  have hwarm : activeFacts.filter (fun f => tier1 f == Tier.warm)
      = activeFacts.filter (fun f => tier2 f == Tier.warm) :=
    List.filter_congr (fun f hf => by rw [htier f hf])
  have hcold : activeFacts.filter (fun f => tier1 f == Tier.cold)
      = activeFacts.filter (fun f => tier2 f == Tier.cold) :=
    List.filter_congr (fun f hf => by rw [htier f hf])
  rw [hhot, hwarm, hcold]
  have hmhot : (activeFacts.filter (fun f => tier2 f == Tier.hot)).map line1
      = (activeFacts.filter (fun f => tier2 f == Tier.hot)).map line2 :=
    List.map_congr_left (fun f hf => hline f (List.mem_filter.mp hf).1)
  have hmwarm : (activeFacts.filter (fun f => tier2 f == Tier.warm)).map line1
      = (activeFacts.filter (fun f => tier2 f == Tier.warm)).map line2 :=
    List.map_congr_left (fun f hf => hline f (List.mem_filter.mp hf).1)
  rw [hmhot, hmwarm]

/-! ## C8: the two summary renderers -/

/-- Counterexample to C8: on a document whose active fact cha-004 carries a
non-null `supersededBy`, the two renderers disagree even on identical
inputs — only the decay renderer applies the supersession marker override,
`regenerate_entity_summary` has no such check. -/
theorem summary_renderers_differ_cex :
    regenerate_entity_summary 4 (some chainyDoc)
      ≠ some (regenerate_summary ⟨7, 30, 10⟩ 4 "chainy" chainyDoc
          (chainyDoc.facts.filter (fun f => f.status == "active"))
          (collectRels (chainyDoc.facts.filter (fun f => f.status == "active")))) := by
  decide

/-- C8 (amended): the two renderers produce byte-identical summary text (and
equal hot+warm counts) on the same entity name, fact document contents and
current date, provided the tier configuration is the default (7, 30, 10) —
which the checkpoint renderer hardcodes — and no active fact of the document
has a truthy `supersededBy`; their only behavioral difference is the decay
renderer's supersession marker override (see the counterexample), including
the shared milestone-marker annotation. -/
theorem summary_renderers_agree (now : Int) (name : String) (doc : Doc)
    (hname : doc.entity = name)
    (hsb : ∀ f ∈ doc.facts, f.status = "active" → truthy f.supersededBy = false) :
    regenerate_entity_summary now (some doc)
      = some (regenerate_summary ⟨7, 30, 10⟩ now name doc
          (doc.facts.filter (fun f => f.status == "active"))
          (collectRels (doc.facts.filter (fun f => f.status == "active")))) := by
  subst hname
  simp only [regenerate_entity_summary, regenerate_summary]
  apply congrArg
  apply assembleSummary_congr
  · intro f _
    exact checkpointTier_eq now (f.lastAccessed.getD doc.created) (f.accessCount.getD 0)
  · intro f hf
    obtain ⟨hmem, hact⟩ := List.mem_filter.mp hf
    exact (factLine_eq f (hsb f hmem (beq_iff_eq .. |>.mp hact))).symm

/-- Witness for C8 (amended): on `probeDoc` (no active fact with a truthy
supersededBy) at day 9, the two renderers produce the same output, obtained
by instantiating the equivalence theorem. -/
theorem summary_renderers_agree_witness :
    regenerate_entity_summary 9 (some probeDoc)
      = some (regenerate_summary ⟨7, 30, 10⟩ 9 "probe" probeDoc
          (probeDoc.facts.filter (fun f => f.status == "active"))
          (collectRels (probeDoc.facts.filter (fun f => f.status == "active")))) :=
  summary_renderers_agree 9 "probe" probeDoc rfl (by decide)

end Para
